import Mathlib

/-!
Verification development for the `ai_cv_parsing` repository.

The core under specification is `src/ai_cv_parsing/utils/llm_analyzer.py`:
the 4-tier JSON recovery cascade `parse_json_response`, the pydantic schema
`CVExtractedFields`, and the 3-strategy orchestrator
`extract_structured_cv_data`.  Pure Python functions are embedded as
executable Lean functions; the external LLM backend (langchain) is an
explicit oracle parameter.
-/

set_option maxRecDepth 16384

namespace CVParse

/-- A JSON value as produced by Python `json.loads`.  JSON numbers are
modelled as integers: the target schema only involves integer and string
lists and none of the properties under verification involve fractional
numbers, so the fraction/exponent part of the JSON number grammar is
omitted (a fractional literal is treated as unparseable trailing input). -/
inductive Json where
  | null : Json
  | bool (b : Bool) : Json
  | num (n : Int) : Json
  | str (s : String) : Json
  | arr (xs : List Json) : Json
  | obj (kvs : List (String × Json)) : Json

/-- Whether a JSON value is an object (a Python `dict`). -/
def Json.isObj : Json → Bool
  | .obj _ => true
  | _ => false

/-- JSON inter-token whitespace, as in Python's `json` module
(`[ \t\n\r]`). -/
def isJsonWs (c : Char) : Bool :=
  c = ' ' || c = '\t' || c = '\n' || c = '\r'

/-- Whitespace stripped by Python `str.strip()` and matched by the regex
class `\s`; modelled on the ASCII range (space, tab, newline, carriage
return, vertical tab, form feed). -/
def isPyWs (c : Char) : Bool :=
  isJsonWs c || c = '\x0b' || c = '\x0c'

/-- Drop leading JSON whitespace. -/
def skipWs : List Char → List Char
  | [] => []
  | c :: cs => if isJsonWs c then skipWs cs else c :: cs

/-- Drop leading `\s` whitespace (used for the regex `\s*` pieces). -/
def skipReWs : List Char → List Char
  | [] => []
  | c :: cs => if isPyWs c then skipReWs cs else c :: cs

/-- Python `str.strip()` on a character list: drop whitespace from both
ends. -/
def pyStripList (cs : List Char) : List Char :=
  ((cs.dropWhile isPyWs).reverse.dropWhile isPyWs).reverse

/-- Python `str.strip()`. -/
def pyStrip (s : String) : String :=
  String.mk (pyStripList s.data)

/-- Decimal digit test. -/
def isDigitCh (c : Char) : Bool :=
  48 ≤ c.toNat && c.toNat ≤ 57

/-- Numeric value of a decimal digit character. -/
def digitVal (c : Char) : Nat := c.toNat - 48

/-- Split off the maximal leading run of decimal digits. -/
def takeDigits : List Char → List Char × List Char
  | [] => ([], [])
  | c :: cs =>
    if isDigitCh c then
      let p := takeDigits cs
      (c :: p.1, p.2)
    else ([], c :: cs)

/-- Value of a big-endian digit string. -/
def digitsToNat (ds : List Char) : Nat :=
  ds.foldl (fun acc c => 10 * acc + digitVal c) 0

/-- Parse the integer part of a JSON number (`0 | [1-9][0-9]*`), exactly
the int part of the regex used by Python's `json` scanner: a leading `0`
is never followed by further digits of the same number. -/
def parseNat? : List Char → Option (Nat × List Char)
  | [] => none
  | c :: cs =>
    if c = '0' then some (0, cs)
    else if isDigitCh c then
      let p := takeDigits cs
      some (digitsToNat (c :: p.1), p.2)
    else none

/-- Parse a JSON number (integer grammar, optional leading minus). -/
def parseNumber : List Char → Option (Int × List Char)
  | [] => none
  | c :: cs =>
    if c = '-' then (parseNat? cs).map (fun p => (-(p.1 : Int), p.2))
    else (parseNat? (c :: cs)).map (fun p => ((p.1 : Int), p.2))

/-- Whether a list does not begin with a decimal digit (used to state
that maximal-munch number parsing stops exactly at a printed number's
end). -/
def noDigitHead : List Char → Bool
  | [] => true
  | c :: _ => !isDigitCh c

/-- Hex digit value, accepting both cases as Python does. -/
def hexVal? (c : Char) : Option Nat :=
  if 48 ≤ c.toNat && c.toNat ≤ 57 then some (c.toNat - 48)
  else if 97 ≤ c.toNat && c.toNat ≤ 102 then some (c.toNat - 87)
  else if 65 ≤ c.toNat && c.toNat ≤ 70 then some (c.toNat - 55)
  else none

/-- Decoding table for the single-character JSON escapes. -/
def escDecode (e : Char) : Option Char :=
  if e = '"' then some '"'
  else if e = '\\' then some '\\'
  else if e = '/' then some '/'
  else if e = 'b' then some '\x08'
  else if e = 'f' then some '\x0c'
  else if e = 'n' then some '\n'
  else if e = 'r' then some '\r'
  else if e = 't' then some '\t'
  else none

/-- Parse the body of a JSON string after the opening quote; returns the
decoded characters and the input remaining after the closing quote.
Escapes are decoded as in Python's `json`; a raw control character is a
parse error (strict mode).  A `\u` escape denoting a UTF-16 surrogate is
outside this model (the serializer proved against never emits one). -/
def parseStringBody : List Char → Option (List Char × List Char)
  | [] => none
  | c :: cs =>
    if c = '"' then some ([], cs)
    else if c = '\\' then
      match cs with
      | [] => none
      | e :: cs' =>
        if e = 'u' then
          match cs' with
          | h1 :: h2 :: h3 :: h4 :: cs'' =>
            match hexVal? h1, hexVal? h2, hexVal? h3, hexVal? h4 with
            | some a, some b, some c', some d =>
              (parseStringBody cs'').map
                (fun p => (Char.ofNat (4096 * a + 256 * b + 16 * c' + d) :: p.1, p.2))
            | _, _, _, _ => none
          | _ => none
        else
          match escDecode e with
          | some d => (parseStringBody cs').map (fun p => (d :: p.1, p.2))
          | none => none
    else if c.toNat < 32 then none
    else (parseStringBody cs).map (fun p => (c :: p.1, p.2))

/-- Expect a fixed sequence of characters, returning the rest. -/
def expectChars : List Char → List Char → Option (List Char)
  | [], cs => some cs
  | _ :: _, [] => none
  | p :: ps, c :: cs => if c = p then expectChars ps cs else none

mutual

/-- Recursive-descent JSON value parser (fuel-indexed; `jsonLoads` supplies
ample fuel).  Mirrors the grammar accepted by Python `json.loads`. -/
def parseValue : Nat → List Char → Option (Json × List Char)
  | 0, _ => none
  | fuel + 1, cs =>
    match skipWs cs with
    | [] => none
    | c :: rest =>
      if c = '\x7b' then
        match skipWs rest with
        | [] => none
        | c2 :: r2 =>
          if c2 = '\x7d' then some (.obj [], r2)
          else parseMembers fuel (c2 :: r2) []
      else if c = '[' then
        match skipWs rest with
        | [] => none
        | c2 :: r2 =>
          if c2 = ']' then some (.arr [], r2)
          else parseItems fuel (c2 :: r2) []
      else if c = '"' then
        (parseStringBody rest).map (fun p => (.str (String.mk p.1), p.2))
      else if c = 't' then
        (expectChars ['r', 'u', 'e'] rest).map (fun r => (.bool true, r))
      else if c = 'f' then
        (expectChars ['a', 'l', 's', 'e'] rest).map (fun r => (.bool false, r))
      else if c = 'n' then
        (expectChars ['u', 'l', 'l'] rest).map (fun r => (.null, r))
      else
        (parseNumber (c :: rest)).map (fun p => (.num p.1, p.2))

/-- Parse the members of a JSON object, positioned at the opening quote of
the next key; keys must be strings, trailing commas are rejected. -/
def parseMembers : Nat → List Char → List (String × Json) →
    Option (Json × List Char)
  | 0, _, _ => none
  | fuel + 1, cs, acc =>
    match cs with
    | [] => none
    | c :: rest =>
      if c = '"' then
        match parseStringBody rest with
        | none => none
        | some (k, r1) =>
          match skipWs r1 with
          | [] => none
          | c2 :: r2 =>
            if c2 = ':' then
              match parseValue fuel r2 with
              | none => none
              | some (v, r3) =>
                match skipWs r3 with
                | [] => none
                | c4 :: r4 =>
                  if c4 = ',' then
                    parseMembers fuel (skipWs r4) (acc ++ [(String.mk k, v)])
                  else if c4 = '\x7d' then
                    some (.obj (acc ++ [(String.mk k, v)]), r4)
                  else none
            else none
      else none

/-- Parse the items of a JSON array, positioned at the next value;
trailing commas are rejected. -/
def parseItems : Nat → List Char → List Json → Option (Json × List Char)
  | 0, _, _ => none
  | fuel + 1, cs, acc =>
    match parseValue fuel cs with
    | none => none
    | some (v, r1) =>
      match skipWs r1 with
      | [] => none
      | c2 :: r2 =>
        if c2 = ',' then parseItems fuel r2 (acc ++ [v])
        else if c2 = ']' then some (.arr (acc ++ [v]), r2)
        else none

end

/-- Python `json.loads`: parse one JSON value and require that only
whitespace remains ("Extra data" otherwise).  `none` models
`json.JSONDecodeError`, the only exception `json.loads` raises on
string input. -/
def jsonLoads (s : String) : Option Json :=
  match parseValue (s.data.length + 2) s.data with
  | some (j, rest) =>
    match skipWs rest with
    | [] => some j
    | _ :: _ => none
  | none => none

/-- Suffix of the text starting at its first `\x7b` brace (empty when the
text has none): the start of the leftmost match of the regex
`\x7b.*\x7d` with `re.DOTALL`. -/
def spanFrom : List Char → List Char
  | [] => []
  | c :: rest => if c = '\x7b' then c :: rest else spanFrom rest

/-- Prefix of the text ending at its last `\x7d` brace, when one exists:
the greedy extension of `.*\x7d`. -/
def cutAfterLastRBrace : List Char → Option (List Char)
  | [] => none
  | c :: rest =>
    match cutAfterLastRBrace rest with
    | some t => some (c :: t)
    | none => if c = '\x7d' then some [c] else none

/-- Tier-2 candidate of `parse_json_response`: the span matched by
`re.search(r'\x7b.*\x7d', text, re.DOTALL)` — from the first opening
brace through the last closing brace after it, greedily. -/
def tier2Span (cs : List Char) : Option (List Char) :=
  match spanFrom cs with
  | [] => none
  | c :: rest =>
    match cutAfterLastRBrace rest with
    | some t => some (c :: t)
    | none => none

/-- Whether the input begins (after optional `\s*`) with a closing
code fence (three backquotes): the `\s*` ``\x60\x60\x60`` tail of the
tier-3 fence patterns. -/
def closesFence (cs : List Char) : Bool :=
  match expectChars ('\x60' :: '\x60' :: '\x60' :: []) (skipReWs cs) with
  | some _ => true
  | none => false

/-- Lazy search for the end of the fenced group: the body grows until the
first `\x7d` that is followed by `\s*` and a closing fence, matching the
non-greedy `.*?` of the tier-3 patterns. -/
def lazyClose : List Char → List Char → Option (List Char)
  | _, [] => none
  | acc, c :: rest =>
    if c = '\x7d' && closesFence rest then some acc.reverse
    else lazyClose (c :: acc) rest

/-- Attempt the tier-3 fence pattern at the current position: the opening
token, then `\s*`, then a brace-delimited lazily-matched group, then
`\s*` and a closing fence.  Returns the captured group (with its
braces). -/
def tryFenceAt (tok : List Char) (cs : List Char) : Option (List Char) :=
  match expectChars tok cs with
  | none => none
  | some r1 =>
    match skipReWs r1 with
    | [] => none
    | c :: r2 =>
      if c = '\x7b' then
        (lazyClose [] r2).map (fun body => '\x7b' :: body ++ ['\x7d'])
      else none

/-- `re.search` for a tier-3 fence pattern: try the pattern at every
position, leftmost first. -/
def searchFence (tok : List Char) : List Char → Option (List Char)
  | [] => none
  | c :: rest =>
    match tryFenceAt tok (c :: rest) with
    | some g => some g
    | none => searchFence tok rest

/-- Opening token of the json-labelled fence pattern
(three backquotes followed by the word json). -/
def ticksJson : List Char := ("\x60\x60\x60json").data

/-- Opening token of the generic fence pattern (three backquotes). -/
def ticksPlain : List Char := ("\x60\x60\x60").data

/-- Result of `parse_json_response`: a parsed JSON value, or the
`ValueError` of level 4 carrying the truncated excerpt. -/
inductive ParseResult where
  | ok (j : Json) : ParseResult
  | parseFailure (excerpt : String) : ParseResult

/-- Level 3 of `parse_json_response` followed by level 4: try the
json-labelled fence, then the generic fence (the loop `continue`s to the
next pattern when the captured group fails to parse), and raise the
`ValueError` with the `text[:200]` excerpt when everything failed. -/
def tryGenericFence (text : String) : Option Json :=
  match searchFence ticksPlain text.data with
  | some g => jsonLoads (pyStrip (String.mk g))
  | none => none

/-- Level 3 of `parse_json_response`: the two fence patterns in order. -/
def tier3Result (text : String) : Option Json :=
  match searchFence ticksJson text.data with
  | some g =>
    match jsonLoads (pyStrip (String.mk g)) with
    | some j => some j
    | none => tryGenericFence text
  | none => tryGenericFence text

/-- Levels 3 and 4 of `parse_json_response`.  The excerpt is Python's
`text[:200]`: the first 200 characters of the original text (all of it
when shorter). -/
def tier3OrFail (text : String) : ParseResult :=
  match tier3Result text with
  | some j => .ok j
  | none => .parseFailure (String.mk (text.data.take 200))

/-- The multi-level JSON parsing cascade `parse_json_response` of
`llm_analyzer.py`: level 1 `json.loads(text.strip())`; level 2 the greedy
brace span; level 3 the fence patterns; level 4 `ValueError` with the
first 200 characters of the original text. -/
def parse_json_response (text : String) : ParseResult :=
  match jsonLoads (pyStrip text) with
  | some j => .ok j
  | none =>
    match tier2Span text.data with
    | some span =>
      match jsonLoads (pyStrip (String.mk span)) with
      | some j => .ok j
      | none => tier3OrFail text
    | none => tier3OrFail text

/-- The pydantic model of `llm_analyzer.py`:
`years_of_employment: List[int]`, `skills: List[str]`,
`languages: List[str]`. -/
structure CVExtractedFields where
  years_of_employment : List Int
  skills : List String
  languages : List String
deriving DecidableEq

/-- Value of a nonempty all-digit string, `none` otherwise. -/
def digitsAll? (cs : List Char) : Option Nat :=
  if !cs.isEmpty && cs.all isDigitCh then some (digitsToNat cs) else none

/-- Integer value of a decimal string with optional sign, as accepted by
pydantic v2 lax coercion of strings to `int` (the model covers plain
decimal strings; pydantic fringe cases such as underscores or
surrounding whitespace are not exercised by this repository). -/
def strToInt? (s : String) : Option Int :=
  match s.data with
  | [] => none
  | c :: cs =>
    if c = '-' then (digitsAll? cs).map (fun n => -(n : Int))
    else if c = '+' then (digitsAll? cs).map (fun n => (n : Int))
    else (digitsAll? (c :: cs)).map (fun n => (n : Int))

/-- Pydantic v2 lax coercion of a JSON value to `int`: integers pass,
integer-denoting strings are converted, everything else (booleans,
strings of other shapes, lists, objects, null) is a validation error. -/
def coerceInt : Json → Option Int
  | .num n => some n
  | .str s => strToInt? s
  | _ => none

/-- Pydantic v2 lax coercion of a JSON value to `str`: only strings pass
(numbers and booleans are not coerced to strings). -/
def coerceStr : Json → Option String
  | .str s => some s
  | _ => none

/-- Coerce every element of a list to `int`; any failure fails the
whole list. -/
def coerceInts : List Json → Option (List Int)
  | [] => some []
  | j :: rest =>
    match coerceInt j, coerceInts rest with
    | some n, some ns => some (n :: ns)
    | _, _ => none

/-- Coerce every element of a list to `str`; any failure fails the
whole list. -/
def coerceStrs : List Json → Option (List String)
  | [] => some []
  | j :: rest =>
    match coerceStr j, coerceStrs rest with
    | some s, some ss => some (s :: ss)
    | _, _ => none

/-- Validate a JSON value as `List[int]`: it must be a JSON array and
every element must coerce. -/
def asIntList : Json → Option (List Int)
  | .arr xs => coerceInts xs
  | _ => none

/-- Validate a JSON value as `List[str]`. -/
def asStrList : Json → Option (List String)
  | .arr xs => coerceStrs xs
  | _ => none

/-- Python `dict` lookup on the association list built by `json.loads`:
the last occurrence of a duplicated key wins. -/
def pyDictGet : List (String × Json) → String → Option Json
  | [], _ => none
  | (k, v) :: rest, key =>
    match pyDictGet rest key with
    | some w => some w
    | none => if k = key then some v else none

/-- The raw Python exception kind raised by `CVExtractedFields(**parsed)`
when it fails: `pydantic.ValidationError` when the argument is a dict
whose fields do not validate, `TypeError` when the argument is not a
mapping at all (`**` on a list, string, number, boolean or `None`). -/
inductive ValErr where
  | validationError : ValErr
  | typeError : ValErr
deriving DecidableEq

/-- `CVExtractedFields(**parsed)` of `llm_analyzer.py`: all three fields
must be present (extra keys are ignored, pydantic's default), each must
be a list, and each element must coerce to the declared element type
under pydantic v2 lax mode. -/
def validateCV : Json → Except ValErr CVExtractedFields
  | .obj kvs =>
    match pyDictGet kvs "years_of_employment", pyDictGet kvs "skills",
          pyDictGet kvs "languages" with
    | some y, some s, some l =>
      match asIntList y, asStrList s, asStrList l with
      | some ys, some ss, some ls => .ok ⟨ys, ss, ls⟩
      | _, _, _ => .error .validationError
    | _, _, _ => .error .validationError
  | _ => .error .typeError

/-- Outcome of the normalization pipeline (the strategy-3 tail of
`extract_structured_cv_data`, lines 182-190: `parse_json_response`
followed by `CVExtractedFields(**parsed_json)`). -/
inductive NormResult where
  | ok (r : CVExtractedFields) : NormResult
  | parseFailure (excerpt : String) : NormResult
  | validationFailure : NormResult
  | typeErrorFailure : NormResult
deriving DecidableEq

/-- The spec's `normalize`: the 4-tier cascade followed by schema
validation, exactly as composed on the manual-parsing path of
`extract_structured_cv_data`. -/
def normalize (text : String) : NormResult :=
  match parse_json_response text with
  | .ok j =>
    match validateCV j with
    | .ok r => .ok r
    | .error .validationError => .validationFailure
    | .error .typeError => .typeErrorFailure
  | .parseFailure e => .parseFailure e

/-- The fixed part of the extraction prompt before the CV text. -/
def promptPrefix : String :=
  "user:\n# Qwen3 4B CV Extraction Prompt\n\n**Instruction**: Extract structured CV data into strict JSON.\n\n### Years of Employment\n- Expand all **explicit numeric date ranges** into full years.\n  - Example: \x602015-2017 → [2015, 2016, 2017]\x60\n  - Example: \x602022 → [2022]\x60\n- Concat all extracted years of employment into one **flat list**.\n\n### Skills\n- Identify the \"Skills\" section.\n- Each skill must be a separate string.\n\n### Languages\n- Extract language names only.\n- Return as a flat list of strings.\n\n### Output\n- Return ONLY valid JSON, no additional text.\n\nCV Text to process:\n\n"

/-- The fixed part of the extraction prompt after the CV text. -/
def promptSuffix : String :=
  "\n\nA:\n\x7b\n  \"years_of_employment\": [list of years],\n  \"skills\": [list of skills],\n  \"languages\": [list of languages]\n\x7d"

/-- The `complete_prompt` f-string of `extract_structured_cv_data`. -/
def complete_prompt (text : String) : String :=
  promptPrefix ++ text ++ promptSuffix

/-- The three extraction strategies, in the order the orchestrator
attempts them. -/
inductive StrategyId where
  | structured : StrategyId
  | parserAssisted : StrategyId
  | manual : StrategyId
deriving DecidableEq

/-- The raw Python exception escaping from the unguarded strategy-3 block
of `extract_structured_cv_data` (the final fallback has no
`try`/`except` around it): the model-client exception from
`llm.invoke`, the `ValueError` raised by `parse_json_response` (with its
excerpt), the `pydantic.ValidationError` from `CVExtractedFields(**.)`,
or the `TypeError` from `**` applied to a non-mapping. -/
inductive ExtractError where
  | modelCallError : ExtractError
  | parseError (excerpt : String) : ExtractError
  | validationError : ExtractError
  | typeError : ExtractError
deriving DecidableEq

/-- The external langchain/LLM dependency of `extract_structured_cv_data`,
as an oracle.  `structuredInvoke` is the strategy-1
`with_structured_output(...).invoke(prompt)` call (`.error` models any
raised exception); `invoke n prompt` is the n-th free-text
`llm.invoke(prompt)` call (strategy 2 issues call 0, strategy 3 call 1);
`jsonOutputParse` is langchain's `JsonOutputParser.parse` on the raw
response content (`.error` models `OutputParserException`). -/
structure Backend where
  structuredInvoke : String → Except Unit CVExtractedFields
  invoke : Nat → String → Except Unit String
  jsonOutputParse : String → Except Unit Json

/-- Strategy 2 of `extract_structured_cv_data` (the JsonOutputParser
fallback): one model call, the generic JSON parser, then pydantic
validation; its enclosing `except` catches every failure. -/
def strategy2 (b : Backend) (prompt : String) : Except Unit CVExtractedFields :=
  match b.invoke 0 prompt with
  | .error _ => .error ()
  | .ok content =>
    match b.jsonOutputParse content with
    | .error _ => .error ()
    | .ok j =>
      match validateCV j with
      | .ok r => .ok r
      | .error _ => .error ()

/-- Strategy 3 of `extract_structured_cv_data` (manual parsing): one model
call, `parse_json_response`, then pydantic validation.  This block is not
wrapped in `try`/`except`, so each failure surfaces as its raw exception
type. -/
def strategy3 (b : Backend) (prompt : String) :
    Except ExtractError CVExtractedFields :=
  match b.invoke 1 prompt with
  | .error _ => .error .modelCallError
  | .ok content =>
    match parse_json_response content with
    | .parseFailure e => .error (.parseError e)
    | .ok j =>
      match validateCV j with
      | .ok r => .ok r
      | .error .validationError => .error .validationError
      | .error .typeError => .error .typeError

/-- The orchestrator `extract_structured_cv_data`: strategy 1 in a `try`,
strategy 2 in the nested `except`'s `try`, strategy 3 unguarded in the
inner `except`.  The second component records which strategies were
attempted (each attempted strategy issues exactly one model call). -/
def extract_structured_cv_data (b : Backend) (text : String) :
    Except ExtractError CVExtractedFields × List StrategyId :=
  match b.structuredInvoke (complete_prompt text) with
  | .ok r => (.ok r, [.structured])
  | .error _ =>
    match strategy2 b (complete_prompt text) with
    | .ok r => (.ok r, [.structured, .parserAssisted])
    | .error _ =>
      (strategy3 b (complete_prompt text), [.structured, .parserAssisted, .manual])

/-- The JSON value corresponding to a validated record (its
`model_dump()` viewed as JSON). -/
def recordJson (r : CVExtractedFields) : Json :=
  .obj [("years_of_employment", .arr (r.years_of_employment.map .num)),
        ("skills", .arr (r.skills.map .str)),
        ("languages", .arr (r.languages.map .str))]

/-- Hexadecimal digit character (lowercase, as Python emits). -/
def hexDigit (d : Nat) : Char :=
  if d < 10 then Char.ofNat (48 + d) else Char.ofNat (87 + d)

/-- Big-endian decimal digits of a natural number. -/
def natDigits (n : Nat) : List Char :=
  if h : n < 10 then [Char.ofNat (48 + n)]
  else natDigits (n / 10) ++ [Char.ofNat (48 + n % 10)]
decreasing_by exact Nat.div_lt_self (by omega) (by omega)

/-- Decimal representation of an integer. -/
def intChars (i : Int) : List Char :=
  if i < 0 then '-' :: natDigits i.natAbs else natDigits i.toNat

/-- JSON escaping of one string character: quote and backslash escaped,
control characters as `\u00XX`, all other characters literal. -/
def escapeChar (c : Char) : List Char :=
  if c = '"' then ['\\', '"']
  else if c = '\\' then ['\\', '\\']
  else if c.toNat < 32 then
    ['\\', 'u', '0', '0', hexDigit (c.toNat / 16), hexDigit (c.toNat % 16)]
  else [c]

/-- JSON escaping of a character list. -/
def escapeList : List Char → List Char
  | [] => []
  | c :: cs => escapeChar c ++ escapeList cs

/-- A JSON string literal. -/
def printStr (s : String) : List Char :=
  '"' :: escapeList s.data ++ ['"']

/-- Comma-space separated concatenation (Python `json.dumps` default
item separator). -/
def joinComma : List (List Char) → List Char
  | [] => []
  | [x] => x
  | x :: y :: rest => x ++ ',' :: ' ' :: joinComma (y :: rest)

/-- A JSON array literal. -/
def printArr (elems : List (List Char)) : List Char :=
  '[' :: joinComma elems ++ [']']

/-- One serialized object member (printed key, colon-space, printed
value) followed by the remaining input; an abbreviation used to state
the round-trip lemmas. -/
def memberChars (key : String) (vc tail : List Char) : List Char :=
  '"' :: (escapeList key.data ++ '"' :: (':' :: ' ' :: (vc ++ tail)))

/-- Modelled from the spec: the JSON serialization of an
`ExtractedRecord` ("serializable as a JSON object with keys
years_of_employment, skills, languages").  The repository returns the
validated dict to FastAPI, which serializes it this way; no serializer
exists under src/, so this definition follows the spec's words with
`json.dumps`-style formatting. -/
def serializeRecord (r : CVExtractedFields) : String :=
  String.mk
    ('\x7b' :: printStr "years_of_employment" ++ ':' :: ' ' ::
      printArr (r.years_of_employment.map intChars) ++ ',' :: ' ' ::
      printStr "skills" ++ ':' :: ' ' ::
      printArr (r.skills.map printStr) ++ ',' :: ' ' ::
      printStr "languages" ++ ':' :: ' ' ::
      printArr (r.languages.map printStr) ++ ['\x7d'])

/-! Concrete texts used in the claim theorems. -/

/-- The spec's wrong-field-types example. -/
def exWrongTypes : String :=
  "\x7b\"years_of_employment\":\"2020\",\"skills\":[],\"languages\":[]\x7d"

/-- The spec's prose-embedded-object example. -/
def exEmbedded : String :=
  "Here is the result: \x7b\"years_of_employment\":[2020],\"skills\":[\"Go\"],\"languages\":[\"English\"]\x7d Thanks."

/-- The record embedded in `exEmbedded`, as JSON. -/
def exEmbeddedJson : Json :=
  .obj [("years_of_employment", .arr [.num 2020]),
        ("skills", .arr [.str "Go"]),
        ("languages", .arr [.str "English"])]

/-- A text with a json-labelled fence whose content is unparseable,
followed by a generic fence with valid content. -/
def exTwoFences : String :=
  "\x60\x60\x60json \x7boops\x7d \x60\x60\x60 \x60\x60\x60 \x7b\"a\": 1\x7d \x60\x60\x60"

/-- A backend on which all three strategies fail: the structured call
raises, the first free-text call raises, and the second free-text call
returns JSON with wrong field types. -/
def bAllFail : Backend where
  structuredInvoke := fun _ => .error ()
  invoke := fun n _ =>
    if n = 0 then .error ()
    else .ok "\x7b\"years_of_employment\": \"2020\", \"skills\": [], \"languages\": []\x7d"
  jsonOutputParse := fun _ => .error ()

/-- A backend on which strategy 1 raises and strategy 2 succeeds. -/
def bStrategy2Ok : Backend where
  structuredInvoke := fun _ => .error ()
  invoke := fun _ _ =>
    .ok "\x7b\"years_of_employment\": [2015], \"skills\": [\"Go\"], \"languages\": [\"English\"]\x7d"
  jsonOutputParse := fun _ =>
    .ok (Json.obj [("years_of_employment", Json.arr [Json.num 2015]),
                   ("skills", Json.arr [Json.str "Go"]),
                   ("languages", Json.arr [Json.str "English"])])

/-! The claims. -/

/-- Claim C1, counterexample: on `bAllFail` all three strategies fail
and `extract_structured_cv_data` surfaces the raw
`pydantic.ValidationError` from the unguarded strategy-3 block — there
is no `ExtractionFailure` wrapper anywhere in the code, so a raw
schema-validation exception type escapes to the caller, contrary to the
claim. -/
theorem C1_counterexample :
    extract_structured_cv_data bAllFail "cv" =
      (.error ExtractError.validationError,
       [.structured, .parserAssisted, .manual]) := rfl

/-- Claim C1, amended: when strategies 1 and 2 fail, `extract` returns
strategy 3's outcome unchanged — the terminal failure is the raw
strategy-3 exception (the `ValueError` with the excerpt, the
validation error, the `TypeError`, or the model-client error), with no
wrapping. -/
theorem C1_raw_strategy3_error :
    ∀ (b : Backend) (t : String),
      b.structuredInvoke (complete_prompt t) = .error () →
      strategy2 b (complete_prompt t) = .error () →
      (extract_structured_cv_data b t).1 = strategy3 b (complete_prompt t) := by
  intro b t h1 h2
  simp [extract_structured_cv_data, h1, h2]

/-- Claim C1, witness for the amended theorem at the concrete backend
`bAllFail`. -/
theorem C1_witness :
    (extract_structured_cv_data bAllFail "cv").1 =
      strategy3 bAllFail (complete_prompt "cv") :=
  C1_raw_strategy3_error bAllFail "cv" rfl rfl

/-- Claim C2: once a tier yields syntactically valid JSON, a
schema-validation failure propagates as a validation failure (no further
tier is attempted — `parse_json_response` has already returned), and the
wrong-field-types example yields `ValidationFailure`, never
`ParseFailure`. -/
theorem C2_validation_not_retried :
    (∀ text j, parse_json_response text = .ok j →
        validateCV j = .error .validationError →
        normalize text = .validationFailure) ∧
    normalize exWrongTypes = .validationFailure ∧
    (∀ e, normalize exWrongTypes ≠ .parseFailure e) := by
  refine ⟨?_, ?_, ?_⟩
  · intro text j h1 h2
    simp [normalize, h1, h2]
  · rfl
  · intro e h
    rw [show normalize exWrongTypes = .validationFailure from rfl] at h
    exact NormResult.noConfusion h

/-- Claim C2, witness at the wrong-field-types example. -/
theorem C2_witness : normalize exWrongTypes = .validationFailure :=
  C2_validation_not_retried.1 exWrongTypes
    (Json.obj [("years_of_employment", Json.str "2020"),
               ("skills", Json.arr []), ("languages", Json.arr [])])
    rfl rfl

/-- Claim C3, counterexample: in `exTwoFences` a json-labelled fence is
present (the search succeeds, capturing an unparseable group), yet tier 3
consults the generic fence and returns its record — refuting "a generic
fence is not consulted when a json-labeled fence exists". -/
theorem C3_counterexample :
    searchFence ticksJson exTwoFences.data = some (("\x7boops\x7d").data) ∧
    jsonLoads (pyStrip (String.mk (("\x7boops\x7d").data))) = none ∧
    tier3Result exTwoFences = some (Json.obj [("a", Json.num 1)]) :=
  ⟨rfl, rfl, rfl⟩

/-- Claim C3, amended: tier 3 tries the json-labelled fence pattern
first and uses its capture when it parses; the generic fence is
consulted when the labelled pattern finds no match or when its captured
content fails to parse. -/
theorem C3_fence_priority :
    (∀ text g j, searchFence ticksJson text.data = some g →
        jsonLoads (pyStrip (String.mk g)) = some j →
        tier3Result text = some j) ∧
    (∀ text, searchFence ticksJson text.data = none →
        tier3Result text = tryGenericFence text) ∧
    (∀ text g, searchFence ticksJson text.data = some g →
        jsonLoads (pyStrip (String.mk g)) = none →
        tier3Result text = tryGenericFence text) := by
  refine ⟨?_, ?_, ?_⟩
  · intro text g j h1 h2
    simp [tier3Result, h1, h2]
  · intro text h1
    simp [tier3Result, h1]
  · intro text g h1 h2
    simp [tier3Result, h1, h2]

/-- Claim C3, witness: a labelled fence with parseable content wins. -/
theorem C3_witness :
    tier3Result "\x60\x60\x60json \x7b\"a\": 1\x7d \x60\x60\x60" =
      some (Json.obj [("a", Json.num 1)]) :=
  C3_fence_priority.1 "\x60\x60\x60json \x7b\"a\": 1\x7d \x60\x60\x60"
    (("\x7b\"a\": 1\x7d").data) (Json.obj [("a", Json.num 1)]) rfl rfl

/-- Claim C4, counterexample: tier 1 succeeds on the trimmed text
`[1]`, which is a JSON array, not an object — the value handed on to
schema validation is not an object, refuting the claim. -/
theorem C4_counterexample :
    parse_json_response "[1]" = .ok (Json.arr [Json.num 1]) ∧
    Json.isObj (Json.arr [Json.num 1]) = false :=
  ⟨rfl, rfl⟩

/-- Claim C4, amended: tier 1 parses the entire trimmed text as a JSON
value of any kind (`json.loads` accepts arrays, strings, numbers,
booleans and null as top-level values) and hands whatever value parsed
to validation; a non-object value then fails there with a raw
`TypeError` (from `**` on a non-mapping), not a validation error. -/
theorem C4_tier1_any_value :
    (∀ text j, jsonLoads (pyStrip text) = some j →
        parse_json_response text = .ok j) ∧
    validateCV (Json.arr [Json.num 1]) = .error .typeError := by
  refine ⟨?_, rfl⟩
  intro text j h
  simp [parse_json_response, h]

/-- Claim C4, witness: a top-level JSON number passes tier 1. -/
theorem C4_witness : parse_json_response " 42 " = .ok (Json.num 42) :=
  C4_tier1_any_value.1 " 42 " (Json.num 42) rfl

/-- Claim C5, counterexample: a record whose `skills` list contains the
empty string is accepted whole by `CVExtractedFields` — pydantic
`List[str]` imposes no non-emptiness constraint, refuting "a record with
any empty-string element is rejected as a whole". -/
theorem C5_counterexample :
    validateCV (Json.obj [("years_of_employment", Json.arr [Json.num 1]),
                          ("skills", Json.arr [Json.str ""]),
                          ("languages", Json.arr [Json.str "English"])]) =
      .ok ⟨[1], [""], ["English"]⟩ := rfl

/-- Claim C5, amended: validation accepts a parsed object only if all
three fields are present as lists whose every element coerces to the
declared element type under pydantic lax mode (integers or
integer-denoting strings for `years_of_employment`, strings — empty
ones included — for `skills` and `languages`); a missing field or any
non-coercible element rejects the record as a whole, and an accepted
record's lists are exactly the coercions of the field elements. -/
theorem C5_whole_record_validation :
    (∀ kvs, pyDictGet kvs "years_of_employment" = none →
        validateCV (.obj kvs) = .error .validationError) ∧
    (∀ kvs, pyDictGet kvs "skills" = none →
        validateCV (.obj kvs) = .error .validationError) ∧
    (∀ kvs, pyDictGet kvs "languages" = none →
        validateCV (.obj kvs) = .error .validationError) ∧
    (∀ kvs r, validateCV (.obj kvs) = .ok r →
        ∃ ya sa la, pyDictGet kvs "years_of_employment" = some ya ∧
          pyDictGet kvs "skills" = some sa ∧
          pyDictGet kvs "languages" = some la ∧
          asIntList ya = some r.years_of_employment ∧
          asStrList sa = some r.skills ∧
          asStrList la = some r.languages) := by
  refine ⟨?_, ?_, ?_, ?_⟩
  · intro kvs h
    cases hs : pyDictGet kvs "skills" <;> cases hl : pyDictGet kvs "languages" <;>
      simp [validateCV, h, hs, hl]
  · intro kvs h
    cases hy : pyDictGet kvs "years_of_employment" <;>
      cases hl : pyDictGet kvs "languages" <;>
      simp [validateCV, h, hy, hl]
  · intro kvs h
    cases hy : pyDictGet kvs "years_of_employment" <;>
      cases hs : pyDictGet kvs "skills" <;>
      simp [validateCV, h, hy, hs]
  · intro kvs r h
    cases hy : pyDictGet kvs "years_of_employment" with
    | none => simp [validateCV, hy] at h
    | some ya =>
      cases hs : pyDictGet kvs "skills" with
      | none => simp [validateCV, hy, hs] at h
      | some sa =>
        cases hl : pyDictGet kvs "languages" with
        | none => simp [validateCV, hy, hs, hl] at h
        | some la =>
          refine ⟨ya, sa, la, rfl, rfl, rfl, ?_⟩
          cases hys : asIntList ya with
          | none => simp [validateCV, hy, hs, hl, hys] at h
          | some ys =>
            cases hss : asStrList sa with
            | none => simp [validateCV, hy, hs, hl, hys, hss] at h
            | some ss =>
              cases hls : asStrList la with
              | none => simp [validateCV, hy, hs, hl, hys, hss, hls] at h
              | some ls =>
                have : r = ⟨ys, ss, ls⟩ := by
                  simp [validateCV, hy, hs, hl, hys, hss, hls] at h
                  exact h.symm
                subst this
                exact ⟨rfl, rfl, rfl⟩

/-- Claim C5, witness: the empty object is missing every field and is
rejected. -/
theorem C5_witness : validateCV (.obj []) = .error .validationError :=
  C5_whole_record_validation.1 [] rfl

/-- Claim C6: the orchestrator attempts strategies strictly in the
order structured, parser-assisted, manual; the attempt trace is always a
prefix of that order (so at most three model calls, one per attempted
strategy); a later strategy runs only after the earlier ones failed; and
`extract` succeeds when strategy 2 or 3 succeeds after strategy 1
fails. -/
theorem C6_strategy_chain :
    ∀ (b : Backend) (t : String),
      ((extract_structured_cv_data b t).2 = [.structured] ∨
       (extract_structured_cv_data b t).2 = [.structured, .parserAssisted] ∨
       (extract_structured_cv_data b t).2 =
         [.structured, .parserAssisted, .manual]) ∧
      (extract_structured_cv_data b t).2.length ≤ 3 ∧
      (∀ r, b.structuredInvoke (complete_prompt t) = .ok r →
          extract_structured_cv_data b t = (.ok r, [.structured])) ∧
      (∀ r, b.structuredInvoke (complete_prompt t) = .error () →
          strategy2 b (complete_prompt t) = .ok r →
          extract_structured_cv_data b t =
            (.ok r, [.structured, .parserAssisted])) ∧
      (∀ r, b.structuredInvoke (complete_prompt t) = .error () →
          strategy2 b (complete_prompt t) = .error () →
          strategy3 b (complete_prompt t) = .ok r →
          extract_structured_cv_data b t =
            (.ok r, [.structured, .parserAssisted, .manual])) := by
  intro b t
  refine ⟨?_, ?_, ?_, ?_, ?_⟩
  · cases h1 : b.structuredInvoke (complete_prompt t) with
    | ok r => simp [extract_structured_cv_data, h1]
    | error e =>
      cases h2 : strategy2 b (complete_prompt t) with
      | ok r => simp [extract_structured_cv_data, h1, h2]
      | error e2 => simp [extract_structured_cv_data, h1, h2]
  · cases h1 : b.structuredInvoke (complete_prompt t) with
    | ok r => simp [extract_structured_cv_data, h1]
    | error e =>
      cases h2 : strategy2 b (complete_prompt t) with
      | ok r => simp [extract_structured_cv_data, h1, h2]
      | error e2 => simp [extract_structured_cv_data, h1, h2]
  · intro r h1
    simp [extract_structured_cv_data, h1]
  · intro r h1 h2
    simp [extract_structured_cv_data, h1, h2]
  · intro r h1 h2 h3
    simp [extract_structured_cv_data, h1, h2, h3]

/-- Claim C6, witness: on `bStrategy2Ok` strategy 1 fails and strategy 2
succeeds, so extraction succeeds with exactly the first two strategies
attempted. -/
theorem C6_witness :
    extract_structured_cv_data bStrategy2Ok "cv text" =
      (.ok ⟨[2015], ["Go"], ["English"]⟩,
       [.structured, .parserAssisted]) :=
  (C6_strategy_chain bStrategy2Ok "cv text").2.2.2.1
    ⟨[2015], ["Go"], ["English"]⟩ rfl rfl

/-- Helper: `spanFrom` skips a brace-free prefix. -/
theorem spanFrom_append (pre rest : List Char)
    (h : ∀ c ∈ pre, ¬ c = '\x7b') :
    spanFrom (pre ++ '\x7b' :: rest) = '\x7b' :: rest := by
  induction pre with
  | nil => simp [spanFrom]
  | cons c cs ih =>
    have hc : ¬ c = '\x7b' := h c (by simp)
    simp only [List.cons_append, spanFrom, if_neg hc]
    exact ih (fun c' hc' => h c' (by simp [hc']))

/-- Helper: a brace-free list has no closing brace to cut at. -/
theorem cutAfterLastRBrace_none (post : List Char)
    (h : ∀ c ∈ post, ¬ c = '\x7d') :
    cutAfterLastRBrace post = none := by
  induction post with
  | nil => rfl
  | cons c cs ih =>
    have hc : ¬ c = '\x7d' := h c (by simp)
    have ih' := ih (fun c' hc' => h c' (by simp [hc']))
    simp [cutAfterLastRBrace, ih', hc]

/-- Helper: `cutAfterLastRBrace` cuts at the last closing brace when the
tail after it is brace-free. -/
theorem cutAfterLastRBrace_append (mid post : List Char)
    (h : ∀ c ∈ post, ¬ c = '\x7d') :
    cutAfterLastRBrace (mid ++ '\x7d' :: post) = some (mid ++ ['\x7d']) := by
  induction mid with
  | nil => simp [cutAfterLastRBrace, cutAfterLastRBrace_none post h]
  | cons c cs ih => simp [cutAfterLastRBrace, ih]

/-- Claim C7: when tier 1 fails, tier 2 works on the greedy span from the
first opening brace through the last closing brace (the decomposition
conjunct characterizes the span on any text split as brace-free prose,
an opening brace, arbitrary middle, the last closing brace, and
closing-brace-free prose); a successful parse of the span is returned,
a failed parse falls through to tier 3, and the spec's prose-embedded
example returns exactly the embedded record via tier 2. -/
theorem C7_greedy_span :
    (∀ pre mid post, (∀ c ∈ pre, ¬ c = '\x7b') →
        (∀ c ∈ post, ¬ c = '\x7d') →
        tier2Span (pre ++ '\x7b' :: (mid ++ '\x7d' :: post)) =
          some ('\x7b' :: (mid ++ ['\x7d']))) ∧
    (∀ text span j, jsonLoads (pyStrip text) = none →
        tier2Span text.data = some span →
        jsonLoads (pyStrip (String.mk span)) = some j →
        parse_json_response text = .ok j) ∧
    (∀ text span, jsonLoads (pyStrip text) = none →
        tier2Span text.data = some span →
        jsonLoads (pyStrip (String.mk span)) = none →
        parse_json_response text = tier3OrFail text) ∧
    parse_json_response exEmbedded = .ok exEmbeddedJson := by
  refine ⟨?_, ?_, ?_, rfl⟩
  · intro pre mid post hpre hpost
    unfold tier2Span
    rw [spanFrom_append pre _ hpre]
    simp [cutAfterLastRBrace_append mid post hpost]
  · intro text span j h1 h2 h3
    simp [parse_json_response, h1, h2, h3]
  · intro text span h1 h2 h3
    simp [parse_json_response, h1, h2, h3]

/-- Claim C7, witness for the decomposition conjunct on a small concrete
text. -/
theorem C7_witness :
    tier2Span (['a'] ++ '\x7b' :: (['b'] ++ '\x7d' :: ['c'])) =
      some ('\x7b' :: (['b'] ++ ['\x7d'])) :=
  C7_greedy_span.1 ['a'] ['b'] ['c'] (by decide) (by decide)

/-- Claim C8: whenever `parse_json_response` fails, the diagnostic
excerpt is exactly the first `min(200, length)` characters of the
original untrimmed text (`text[:200]`); the empty text and a brace-free,
fence-free text indeed terminate at tier 4. -/
theorem C8_terminal_excerpt :
    (∀ text e, parse_json_response text = .parseFailure e →
        e = String.mk (text.data.take 200)) ∧
    parse_json_response "" = .parseFailure "" ∧
    parse_json_response "I cannot help with that." =
      .parseFailure "I cannot help with that." := by
  refine ⟨?_, rfl, rfl⟩
  intro text e h
  unfold parse_json_response at h
  have hfail : tier3OrFail text = .parseFailure e →
      e = String.mk (text.data.take 200) := by
    intro h3
    unfold tier3OrFail at h3
    cases h4 : tier3Result text with
    | some j =>
      simp only [h4] at h3
      exact ParseResult.noConfusion h3
    | none =>
      simp only [h4] at h3
      injection h3 with h3
      exact h3.symm
  cases h1 : jsonLoads (pyStrip text) with
  | some j =>
    simp only [h1] at h
    exact ParseResult.noConfusion h
  | none =>
    simp only [h1] at h
    cases h2 : tier2Span text.data with
    | some span =>
      simp only [h2] at h
      cases h5 : jsonLoads (pyStrip (String.mk span)) with
      | some j =>
        simp only [h5] at h
        exact ParseResult.noConfusion h
      | none =>
        simp only [h5] at h
        exact hfail h
    | none =>
      simp only [h2] at h
      exact hfail h

/-- Claim C8, witness at a brace-free text. -/
theorem C8_witness :
    "no json here" = String.mk (("no json here").data.take 200) :=
  C8_terminal_excerpt.1 "no json here" "no json here" rfl

/-- Claim C10: pydantic validation is coercive — integer-denoting
strings in `years_of_employment` are converted to integers and the
record is accepted rather than rejected. -/
theorem C10_coercive_validation :
    validateCV (Json.obj [("years_of_employment", Json.arr [Json.str "2020"]),
                          ("skills", Json.arr [Json.str "Go"]),
                          ("languages", Json.arr [Json.str "English"])]) =
      .ok ⟨[2020], ["Go"], ["English"]⟩ := rfl

/-! Helper lemmas for the serialization round trip (claim C9). -/

/-- Helper: `Char.ofNat` is inverted by `toNat` below the surrogate
range. -/
theorem char_toNat_ofNat (n : Nat) (h : n < 55296) :
    (Char.ofNat n).toNat = n := by
  have hv : n.isValidChar := Or.inl h
  simp only [Char.ofNat, hv, dite_true]
  rfl

/-- Helper: `skipWs` keeps a non-whitespace head. -/
theorem skipWs_cons_of_neg (c : Char) (cs : List Char)
    (h : isJsonWs c = false) : skipWs (c :: cs) = c :: cs := by
  simp [skipWs, h]

/-- Helper: `skipWs` drops an all-whitespace prefix. -/
theorem skipWs_append_pad (pad cs : List Char)
    (h : ∀ c ∈ pad, isJsonWs c = true) :
    skipWs (pad ++ cs) = skipWs cs := by
  induction pad with
  | nil => rfl
  | cons c cs' ih =>
    have hc := h c (by simp)
    simp only [List.cons_append, skipWs, hc, if_pos]
    exact ih (fun c' hc' => h c' (by simp [hc']))

/-- Helper: every character of `natDigits n` is a decimal digit. -/
theorem natDigits_digits (n : Nat) :
    ∀ c ∈ natDigits n, isDigitCh c = true := by
  induction n using Nat.strong_induction_on with
  | _ n ih =>
    rw [natDigits]
    by_cases h : n < 10
    · simp only [h, dite_true, List.mem_singleton]
      intro c hc
      subst hc
      simp [isDigitCh, char_toNat_ofNat (48 + n) (by omega)]
      omega
    · simp only [h, dite_false, List.mem_append, List.mem_singleton]
      intro c hc
      rcases hc with hc | hc
      · exact ih (n / 10) (Nat.div_lt_self (by omega) (by omega)) c hc
      · subst hc
        have : n % 10 < 10 := Nat.mod_lt _ (by omega)
        simp [isDigitCh, char_toNat_ofNat (48 + n % 10) (by omega)]
        omega

/-- Helper: `natDigits` never returns the empty list. -/
theorem natDigits_ne_nil (n : Nat) : natDigits n ≠ [] := by
  rw [natDigits]
  by_cases h : n < 10 <;> simp [h]

/-- Helper: the leading digit of a positive number is not zero. -/
theorem natDigits_head_ne_zero (n : Nat) (hn : 0 < n) :
    ∀ c cs, natDigits n = c :: cs → ¬ c = '0' := by
  induction n using Nat.strong_induction_on with
  | _ n ih =>
    intro c cs heq hc
    rw [natDigits] at heq
    by_cases h : n < 10
    · rw [dif_pos h] at heq
      injection heq with h1 _
      rw [hc] at h1
      have h2 := congrArg Char.toNat h1
      rw [char_toNat_ofNat (48 + n) (by omega)] at h2
      have h3 : ('0' : Char).toNat = 48 := rfl
      omega
    · rw [dif_neg h] at heq
      rcases hq : natDigits (n / 10) with _ | ⟨c', cs'⟩
      · exact natDigits_ne_nil _ hq
      · rw [hq, List.cons_append] at heq
        injection heq with h1 _
        exact ih (n / 10) (Nat.div_lt_self (by omega) (by omega))
          (Nat.div_pos (by omega) (by omega)) c' cs' hq (h1.trans hc)

/-- Helper: `digitsToNat` over a snoc. -/
theorem digitsToNat_append (ds : List Char) (c : Char) :
    digitsToNat (ds ++ [c]) = 10 * digitsToNat ds + digitVal c := by
  simp [digitsToNat, List.foldl_append]

/-- Helper: `digitsToNat` inverts `natDigits`. -/
theorem digitsToNat_natDigits (n : Nat) :
    digitsToNat (natDigits n) = n := by
  induction n using Nat.strong_induction_on with
  | _ n ih =>
    rw [natDigits]
    by_cases h : n < 10
    · simp [h, digitsToNat, digitVal, char_toNat_ofNat (48 + n) (by omega)]
    · simp only [h, dite_false, digitsToNat_append]
      rw [ih (n / 10) (Nat.div_lt_self (by omega) (by omega))]
      have : n % 10 < 10 := Nat.mod_lt _ (by omega)
      simp [digitVal, char_toNat_ofNat (48 + n % 10) (by omega)]
      omega

/-- Helper: `takeDigits` splits a printed digit run from a non-digit
continuation. -/
theorem takeDigits_append (ds rest : List Char)
    (h1 : ∀ c ∈ ds, isDigitCh c = true) (h2 : noDigitHead rest = true) :
    takeDigits (ds ++ rest) = (ds, rest) := by
  induction ds with
  | nil =>
    cases rest with
    | nil => rfl
    | cons c rs =>
      simp only [noDigitHead, Bool.not_eq_true'] at h2
      simp [takeDigits, h2]
  | cons c cs ih =>
    have hc := h1 c (by simp)
    have ih' := ih (fun c' hc' => h1 c' (by simp [hc']))
    simp [takeDigits, hc, ih']

/-- Helper: `parseNat?` inverts `natDigits`. -/
theorem parseNat?_natDigits (n : Nat) (rest : List Char)
    (h : noDigitHead rest = true) :
    parseNat? (natDigits n ++ rest) = some (n, rest) := by
  rcases Nat.eq_zero_or_pos n with hn | hn
  · subst hn
    have h0 : natDigits 0 = ['0'] := by
      rw [natDigits]
      decide
    rw [h0]
    simp [parseNat?]
  · rcases hnd : natDigits n with _ | ⟨c, ds⟩
    · exact absurd hnd (natDigits_ne_nil n)
    · have hc0 : ¬ c = '0' := natDigits_head_ne_zero n hn c ds hnd
      have hcd : isDigitCh c = true := natDigits_digits n c (by rw [hnd]; simp)
      have hds : ∀ c' ∈ ds, isDigitCh c' = true :=
        fun c' hc' => natDigits_digits n c' (by rw [hnd]; simp [hc'])
      have htd := takeDigits_append ds rest hds h
      have hdn : digitsToNat (c :: ds) = n := by
        rw [← hnd]
        exact digitsToNat_natDigits n
      rw [List.cons_append]
      simp only [parseNat?, if_neg hc0, hcd, if_true, htd, hdn]

/-- Helper: a digit or minus-sign character is none of the structural
heads the value parser dispatches on. -/
theorem digit_head_facts (c : Char) (h : isDigitCh c = true ∨ c = '-') :
    isJsonWs c = false ∧ ¬ c = '\x7b' ∧ ¬ c = '[' ∧ ¬ c = '"' ∧
      ¬ c = 't' ∧ ¬ c = 'f' ∧ ¬ c = 'n' ∧ ¬ c = ']' ∧ ¬ c = ',' := by
  have hb : c.toNat = 45 ∨ (48 ≤ c.toNat ∧ c.toNat ≤ 57) := by
    rcases h with h | h
    · right
      simpa [isDigitCh] using h
    · left
      subst h
      rfl
  have hne : ∀ x : Char,
      (x.toNat < 45 ∨ (45 < x.toNat ∧ x.toNat < 48) ∨ 57 < x.toNat) →
      ¬ c = x := by
    intro x hx heq
    subst heq
    omega
  have hws : isJsonWs c = false := by
    rw [Bool.eq_false_iff]
    intro ht
    have ht' : ((c = ' ' ∨ c = '\t') ∨ c = '\n') ∨ c = '\x0d' := by
      simpa [isJsonWs] using ht
    rcases ht' with ((rfl | rfl) | rfl) | rfl <;> revert hb <;> decide
  exact ⟨hws, hne '\x7b' (by decide), hne '[' (by decide),
    hne '"' (by decide), hne 't' (by decide), hne 'f' (by decide),
    hne 'n' (by decide), hne ']' (by decide), hne ',' (by decide)⟩

/-- Helper: `parseNumber` inverts `intChars`. -/
theorem parseNumber_intChars (i : Int) (rest : List Char)
    (h : noDigitHead rest = true) :
    parseNumber (intChars i ++ rest) = some (i, rest) := by
  by_cases hi : i < 0
  · simp only [intChars, if_pos hi, List.cons_append, parseNumber,
      if_pos rfl]
    rw [parseNat?_natDigits i.natAbs rest h]
    have habs : -((i.natAbs : Nat) : Int) = i := by omega
    simp only [Option.map_some', habs, if_true]
  · simp only [intChars, if_neg hi]
    rcases hnd : natDigits i.toNat with _ | ⟨c, ds⟩
    · exact absurd hnd (natDigits_ne_nil _)
    · have hcd : isDigitCh c = true :=
        natDigits_digits i.toNat c (by rw [hnd]; simp)
      have hcm : ¬ c = '-' := by
        intro heq
        subst heq
        simp [isDigitCh] at hcd
      have hpn : parseNat? (natDigits i.toNat ++ rest) =
          some (i.toNat, rest) := parseNat?_natDigits i.toNat rest h
      rw [hnd, List.cons_append] at hpn
      rw [List.cons_append]
      simp only [parseNumber, if_neg hcm, hpn]
      have htn : ((i.toNat : Nat) : Int) = i := Int.toNat_of_nonneg (by omega)
      simp only [Option.map_some', htn]

/-- Helper: the printed form of an integer starts with a digit or a
minus sign. -/
theorem intChars_head (i : Int) :
    ∃ c tl, intChars i = c :: tl ∧ (isDigitCh c = true ∨ c = '-') := by
  by_cases hi : i < 0
  · exact ⟨'-', natDigits i.natAbs, by simp [intChars, hi], Or.inr rfl⟩
  · rcases hnd : natDigits i.toNat with _ | ⟨c, ds⟩
    · exact absurd hnd (natDigits_ne_nil _)
    · exact ⟨c, ds, by simp [intChars, hi, hnd],
        Or.inl (natDigits_digits _ c (by rw [hnd]; simp))⟩

/-- Helper: `hexVal?` inverts `hexDigit`. -/
theorem hexVal_hexDigit (d : Nat) (h : d < 16) :
    hexVal? (hexDigit d) = some d := by
  unfold hexVal?
  by_cases hd : d < 10
  · have ht : (hexDigit d).toNat = 48 + d := by
      simp only [hexDigit, if_pos hd]
      exact char_toNat_ofNat _ (by omega)
    rw [ht, if_pos (by simp; omega)]
    congr 1
    omega
  · have ht : (hexDigit d).toNat = 87 + d := by
      simp only [hexDigit, if_neg hd]
      exact char_toNat_ofNat _ (by omega)
    rw [ht, if_neg (by simp; omega), if_pos (by simp; omega)]
    congr 1
    omega

/-- Helper: `parseStringBody` inverts the JSON string escaping. -/
theorem parseStringBody_escape (cs rest : List Char) :
    parseStringBody (escapeList cs ++ '"' :: rest) = some (cs, rest) := by
  induction cs with
  | nil =>
    simp only [escapeList, List.nil_append]
    unfold parseStringBody
    simp
  | cons c cs' ih =>
    by_cases h1 : c = '"'
    · subst h1
      have he : escapeChar '"' = ['\\', '"'] := by simp [escapeChar]
      simp only [escapeList, he, List.cons_append, List.nil_append,
        List.append_assoc]
      unfold parseStringBody
      simp [escDecode, ih]
    · by_cases h2 : c = '\\'
      · subst h2
        have he : escapeChar '\\' = ['\\', '\\'] := by simp [escapeChar]
        simp only [escapeList, he, List.cons_append, List.nil_append,
          List.append_assoc]
        unfold parseStringBody
        simp [escDecode, ih]
      · by_cases h3 : c.toNat < 32
        · have he : escapeChar c =
              ['\\', 'u', '0', '0', hexDigit (c.toNat / 16),
               hexDigit (c.toNat % 16)] := by
            simp [escapeChar, h1, h2, h3]
          simp only [escapeList, he, List.cons_append, List.nil_append,
            List.append_assoc]
          have hv1 : hexVal? (hexDigit (c.toNat / 16)) = some (c.toNat / 16) :=
            hexVal_hexDigit _ (by omega)
          have hv2 : hexVal? (hexDigit (c.toNat % 16)) = some (c.toNat % 16) :=
            hexVal_hexDigit _ (by omega)
          have hv0 : hexVal? '0' = some 0 := by decide
          unfold parseStringBody
          simp [hv0, hv1, hv2, ih]
          have harith : 16 * (c.toNat / 16) + c.toNat % 16 = c.toNat := by
            omega
          rw [harith, Char.ofNat_toNat]
        · have he : escapeChar c = [c] := by simp [escapeChar, h1, h2, h3]
          simp only [escapeList, he, List.cons_append, List.nil_append]
          unfold parseStringBody
          simp [h1, h2, h3, ih]

/-- Helper: a leading whitespace pad does not change `parseValue`. -/
theorem parseValue_pad (fuel : Nat) (pad cs : List Char)
    (hpad : ∀ c ∈ pad, isJsonWs c = true) :
    parseValue fuel (pad ++ cs) = parseValue fuel cs := by
  cases fuel with
  | zero => rfl
  | succ f =>
    simp only [parseValue]
    rw [skipWs_append_pad pad cs hpad]

/-- Helper: `parseValue` parses a printed integer. -/
theorem parseValue_number (fuel : Nat) (i : Int) (rest : List Char)
    (h : noDigitHead rest = true) :
    parseValue (fuel + 1) (intChars i ++ rest) = some (.num i, rest) := by
  obtain ⟨c, tl, heq, hc⟩ := intChars_head i
  obtain ⟨hws, hbr, hbk, hq, ht, hf, hn, _, _⟩ := digit_head_facts c hc
  rw [heq, List.cons_append]
  simp only [parseValue, skipWs_cons_of_neg c (tl ++ rest) hws, if_neg hbr,
    if_neg hbk, if_neg hq, if_neg ht, if_neg hf, if_neg hn]
  rw [← List.cons_append, ← heq, parseNumber_intChars i rest h]
  rfl

/-- Helper: `parseValue` parses a printed string literal. -/
theorem parseValue_string (fuel : Nat) (s : String) (rest : List Char) :
    parseValue (fuel + 1) (printStr s ++ rest) = some (.str s, rest) := by
  have hshape : printStr s ++ rest =
      '"' :: (escapeList s.data ++ '"' :: rest) := by
    simp [printStr]
  rw [hshape]
  simp only [parseValue]
  rw [skipWs_cons_of_neg _ _ (by decide)]
  simp only [if_neg (by decide : ¬('"' : Char) = '\x7b'),
    if_neg (by decide : ¬('"' : Char) = '['), if_pos rfl]
  rw [parseStringBody_escape s.data rest]
  simp only [Option.map_some', if_true]

/-- Helper: a leading whitespace pad does not change `parseItems`. -/
theorem parseItems_pad (fuel : Nat) (pad cs : List Char) (acc : List Json)
    (hpad : ∀ c ∈ pad, isJsonWs c = true) :
    parseItems (fuel + 1) (pad ++ cs) acc = parseItems (fuel + 1) cs acc := by
  simp only [parseItems]
  rw [parseValue_pad fuel pad cs hpad]

/-- Helper: an `if` on a reflexive character comparison. -/
theorem ite_char_eq_self {α : Sort _} (c : Char) (a b : α) :
    (if c = c then a else b) = a := if_pos rfl

/-- Helper: an `if` on a false character comparison. -/
theorem ite_char_ne {α : Sort _} (c d : Char) (h : ¬ c = d) (a b : α) :
    (if c = d then a else b) = b := if_neg h

/-- Helper: `parseItems` parses a comma-space separated list of printed
elements, each of which `parseValue` parses in front of any
non-digit-headed continuation. -/
theorem parseItems_elems :
    ∀ (elems : List (List Char × Json)) (e0 : List Char × Json)
      (acc : List Json) (rest : List Char) (fuel : Nat),
      elems.length + 2 ≤ fuel →
      (∀ p ∈ e0 :: elems, ∀ (f : Nat) (r : List Char),
          noDigitHead r = true →
          parseValue (f + 1) (p.1 ++ r) = some (p.2, r)) →
      parseItems fuel
          (joinComma ((e0 :: elems).map Prod.fst) ++ ']' :: rest) acc =
        some (.arr (acc ++ (e0 :: elems).map Prod.snd), rest) := by
  intro elems
  induction elems with
  | nil =>
    intro e0 acc rest fuel hf Hp
    obtain ⟨f, rfl⟩ : ∃ f, fuel = f + 2 := ⟨fuel - 2, by omega⟩
    simp only [List.map_cons, List.map_nil, joinComma]
    rw [parseItems]
    rw [Hp e0 (by simp) f (']' :: rest) (by simp [noDigitHead, isDigitCh])]
    simp only [skipWs_cons_of_neg ']' rest (by decide),
      ite_char_ne ']' ',' (by decide), ite_char_eq_self, if_true]
  | cons e1 elems' ih =>
    intro e0 acc rest fuel hf Hp
    simp only [List.length_cons] at hf
    obtain ⟨f, rfl⟩ : ∃ f, fuel = f + 2 := ⟨fuel - 2, by omega⟩
    simp only [List.map_cons, joinComma, List.append_assoc,
      List.cons_append]
    set X := joinComma (e1.1 :: List.map Prod.fst elems') ++ ']' :: rest
      with hX
    rw [parseItems]
    rw [Hp e0 (by simp) f (',' :: ' ' :: X)
      (by simp [noDigitHead, isDigitCh])]
    have hpad := parseItems_pad f [' '] X (acc ++ [e0.2]) (by decide)
    rw [List.singleton_append] at hpad
    simp only [skipWs_cons_of_neg ',' (' ' :: X) (by decide),
      ite_char_eq_self, if_true, hpad]
    have happ := ih e1 (acc ++ [e0.2]) rest (f + 1) (by omega)
      (fun p hp => Hp p (List.mem_cons_of_mem _ hp))
    simp only [List.map_cons] at happ
    rw [hX, happ]
    simp

/-- Helper: `parseValue` parses a printed array of integers. -/
theorem parseValue_intArr (ys : List Int) (rest : List Char) (fuel : Nat)
    (h : ys.length + 2 ≤ fuel) :
    parseValue (fuel + 1) (printArr (ys.map intChars) ++ rest) =
      some (.arr (ys.map Json.num), rest) := by
  cases ys with
  | nil =>
    have hsh : printArr (([] : List Int).map intChars) ++ rest =
        '[' :: ']' :: rest := by
      simp [printArr, joinComma]
    rw [hsh]
    simp only [parseValue]
    simp only [skipWs_cons_of_neg '[' (']' :: rest) (by decide),
      skipWs_cons_of_neg ']' rest (by decide),
      ite_char_ne '[' '\x7b' (by decide), ite_char_eq_self, if_true,
      List.map_nil]
  | cons y ys' =>
    simp only [List.length_cons] at h
    have Hp : ∀ p ∈ (y :: ys').map (fun i => (intChars i, Json.num i)),
        ∀ (f : Nat) (r : List Char), noDigitHead r = true →
        parseValue (f + 1) (p.1 ++ r) = some (p.2, r) := by
      intro p hp f r hr
      simp only [List.mem_map] at hp
      obtain ⟨i, _, rfl⟩ := hp
      exact parseValue_number f i r hr
    have harr := parseItems_elems
      (ys'.map (fun i => (intChars i, Json.num i)))
      (intChars y, Json.num y) [] rest fuel
      (by
        simp only [List.length_map]
        omega)
      (by simpa using Hp)
    simp only [← List.map_cons, List.map_map, Function.comp] at harr
    have hsh : printArr ((y :: ys').map intChars) ++ rest =
        '[' :: (joinComma ((y :: ys').map intChars) ++ ']' :: rest) := by
      simp [printArr]
    rw [hsh]
    simp only [parseValue]
    obtain ⟨c, tl, hic, hcd⟩ := intChars_head y
    obtain ⟨hws, _, _, _, _, _, _, hrb, _⟩ := digit_head_facts c hcd
    have hXe : ∃ X, joinComma (List.map intChars (y :: ys')) ++ ']' :: rest =
        c :: X := by
      cases ys' with
      | nil => exact ⟨tl ++ ']' :: rest, by simp [joinComma, hic]⟩
      | cons b bs =>
        exact ⟨tl ++ (',' :: ' ' ::
          (joinComma (List.map intChars (b :: bs)) ++ ']' :: rest)),
          by simp [joinComma, hic, List.append_assoc]⟩
    obtain ⟨X, hXe⟩ := hXe
    rw [skipWs_cons_of_neg '[' _ (by decide)]
    simp only [ite_char_ne '[' '\x7b' (by decide), ite_char_eq_self,
      if_true]
    rw [hXe, skipWs_cons_of_neg c X hws]
    simp only [ite_char_ne c ']' hrb]
    rw [← hXe]
    simpa using harr

/-- Helper: `parseValue` parses a printed array of strings. -/
theorem parseValue_strArr (ss : List String) (rest : List Char) (fuel : Nat)
    (h : ss.length + 2 ≤ fuel) :
    parseValue (fuel + 1) (printArr (ss.map printStr) ++ rest) =
      some (.arr (ss.map Json.str), rest) := by
  cases ss with
  | nil =>
    have hsh : printArr (([] : List String).map printStr) ++ rest =
        '[' :: ']' :: rest := by
      simp [printArr, joinComma]
    rw [hsh]
    simp only [parseValue]
    simp only [skipWs_cons_of_neg '[' (']' :: rest) (by decide),
      skipWs_cons_of_neg ']' rest (by decide),
      ite_char_ne '[' '\x7b' (by decide), ite_char_eq_self, if_true,
      List.map_nil]
  | cons s ss' =>
    simp only [List.length_cons] at h
    have Hp : ∀ p ∈ (s :: ss').map (fun x => (printStr x, Json.str x)),
        ∀ (f : Nat) (r : List Char), noDigitHead r = true →
        parseValue (f + 1) (p.1 ++ r) = some (p.2, r) := by
      intro p hp f r _
      simp only [List.mem_map] at hp
      obtain ⟨x, _, rfl⟩ := hp
      exact parseValue_string f x r
    have harr := parseItems_elems
      (ss'.map (fun x => (printStr x, Json.str x)))
      (printStr s, Json.str s) [] rest fuel
      (by
        simp only [List.length_map]
        omega)
      (by simpa using Hp)
    simp only [← List.map_cons, List.map_map, Function.comp] at harr
    have hsh : printArr ((s :: ss').map printStr) ++ rest =
        '[' :: (joinComma ((s :: ss').map printStr) ++ ']' :: rest) := by
      simp [printArr]
    rw [hsh]
    simp only [parseValue]
    have hXe : ∃ X, joinComma (List.map printStr (s :: ss')) ++ ']' :: rest =
        '"' :: X := by
      cases ss' with
      | nil => exact ⟨escapeList s.data ++ '"' :: ']' :: rest,
          by simp [joinComma, printStr]⟩
      | cons b bs =>
        exact ⟨escapeList s.data ++ '"' :: (',' :: ' ' ::
          (joinComma (List.map printStr (b :: bs)) ++ ']' :: rest)),
          by simp [joinComma, printStr, List.append_assoc]⟩
    obtain ⟨X, hXe⟩ := hXe
    rw [skipWs_cons_of_neg '[' _ (by decide)]
    simp only [ite_char_ne '[' '\x7b' (by decide), ite_char_eq_self,
      if_true]
    rw [hXe, skipWs_cons_of_neg '"' X (by decide)]
    simp only [ite_char_ne '"' ']' (by decide)]
    rw [← hXe]
    simpa using harr

/-- Helper: `skipWs` consumes a single leading space. -/
theorem skipWs_space (cs : List Char) : skipWs (' ' :: cs) = skipWs cs := by
  simp [skipWs, isJsonWs]

/-- Helper: `parseValue` ignores a single leading space. -/
theorem parseValue_space (fuel : Nat) (cs : List Char) :
    parseValue fuel (' ' :: cs) = parseValue fuel cs := by
  have hp := parseValue_pad fuel [' '] cs (by decide)
  rwa [List.singleton_append] at hp

/-- Helper: one object member — a printed key, a colon-space, and a
value whose parse is given — reduces `parseMembers` to the continuation
on the remaining input. -/
theorem parseMembers_cons (m : Nat) (key : String) (vc : List Char)
    (v : Json) (after : List Char) (acc : List (String × Json))
    (hval : parseValue m (' ' :: (vc ++ after)) = some (v, after)) :
    parseMembers (m + 1) (memberChars key vc after) acc =
      (match skipWs after with
       | [] => none
       | c4 :: r4 =>
         if c4 = ',' then parseMembers m (skipWs r4) (acc ++ [(key, v)])
         else if c4 = '\x7d' then some (.obj (acc ++ [(key, v)]), r4)
         else none) := by
  simp only [memberChars]
  rw [parseMembers]
  simp only [ite_char_eq_self, if_true]
  rw [parseStringBody_escape]
  simp only [skipWs_cons_of_neg ':' (' ' :: (vc ++ after)) (by decide),
    ite_char_eq_self, if_true, hval]

/-- Helper: `skipWs` leaves a serialized member start unchanged. -/
theorem skipWs_memberChars (key : String) (vc tail : List Char) :
    skipWs (memberChars key vc tail) = memberChars key vc tail := by
  simp only [memberChars]
  exact skipWs_cons_of_neg '"' _ (by decide)

/-- Helper: `parseValue` parses the full serialized record. -/
theorem parseValue_record (r : CVExtractedFields) (rest : List Char)
    (fuel : Nat)
    (h : r.years_of_employment.length + r.skills.length +
      r.languages.length + 9 ≤ fuel) :
    parseValue (fuel + 1) ((serializeRecord r).data ++ rest) =
      some (recordJson r, rest) := by
  obtain ⟨k, rfl⟩ : ∃ k, fuel = k + 3 := ⟨fuel - 3, by omega⟩
  obtain ⟨k3, rfl⟩ : ∃ k3, k = k3 + 1 := ⟨k - 1, by omega⟩
  have hdata : (serializeRecord r).data ++ rest =
      '\x7b' :: memberChars "years_of_employment"
        (printArr (r.years_of_employment.map intChars))
        (',' :: ' ' :: memberChars "skills"
          (printArr (r.skills.map printStr))
          (',' :: ' ' :: memberChars "languages"
            (printArr (r.languages.map printStr))
            ('\x7d' :: rest))) := by
    conv_lhs => rw [show (serializeRecord r).data =
      ('\x7b' :: printStr "years_of_employment" ++ ':' :: ' ' ::
        printArr (r.years_of_employment.map intChars) ++ ',' :: ' ' ::
        printStr "skills" ++ ':' :: ' ' ::
        printArr (r.skills.map printStr) ++ ',' :: ' ' ::
        printStr "languages" ++ ':' :: ' ' ::
        printArr (r.languages.map printStr) ++ ['\x7d']) from rfl]
    simp [printStr, memberChars, List.append_assoc]
  rw [hdata]
  rw [parseValue]
  rw [skipWs_cons_of_neg '\x7b' _ (by decide)]
  simp only [ite_char_eq_self, if_true]
  rw [skipWs_memberChars]
  obtain ⟨Z, hZ⟩ : ∃ Z, memberChars "years_of_employment"
      (printArr (r.years_of_employment.map intChars))
      (',' :: ' ' :: memberChars "skills"
        (printArr (r.skills.map printStr))
        (',' :: ' ' :: memberChars "languages"
          (printArr (r.languages.map printStr))
          ('\x7d' :: rest))) = '"' :: Z := ⟨_, rfl⟩
  rw [hZ]
  simp only [ite_char_ne '"' '\x7d' (by decide)]
  rw [← hZ]
  have hval1 : parseValue (k3 + 1 + 2)
      (' ' :: (printArr (r.years_of_employment.map intChars) ++
        (',' :: ' ' :: memberChars "skills"
          (printArr (r.skills.map printStr))
          (',' :: ' ' :: memberChars "languages"
            (printArr (r.languages.map printStr))
            ('\x7d' :: rest))))) =
      some (.arr (r.years_of_employment.map Json.num),
        ',' :: ' ' :: memberChars "skills"
          (printArr (r.skills.map printStr))
          (',' :: ' ' :: memberChars "languages"
            (printArr (r.languages.map printStr))
            ('\x7d' :: rest))) := by
    rw [parseValue_space]
    exact parseValue_intArr _ _ (k3 + 1 + 1) (by omega)
  rw [show k3 + 1 + 3 = k3 + 1 + 2 + 1 from rfl]
  rw [parseMembers_cons (k3 + 1 + 2) "years_of_employment" _ _ _ _ hval1]
  rw [skipWs_cons_of_neg ',' _ (by decide)]
  simp only [ite_char_eq_self, if_true]
  rw [skipWs_space, skipWs_memberChars]
  rw [show k3 + 1 + 2 = k3 + 1 + 1 + 1 from rfl]
  have hval2 : parseValue (k3 + 1 + 1)
      (' ' :: (printArr (r.skills.map printStr) ++
        (',' :: ' ' :: memberChars "languages"
          (printArr (r.languages.map printStr))
          ('\x7d' :: rest)))) =
      some (.arr (r.skills.map Json.str),
        ',' :: ' ' :: memberChars "languages"
          (printArr (r.languages.map printStr))
          ('\x7d' :: rest)) := by
    rw [parseValue_space]
    exact parseValue_strArr _ _ (k3 + 1) (by omega)
  rw [parseMembers_cons (k3 + 1 + 1) "skills" _ _ _ _ hval2]
  rw [skipWs_cons_of_neg ',' _ (by decide)]
  simp only [ite_char_eq_self, if_true]
  rw [skipWs_space, skipWs_memberChars]
  have hval3 : parseValue (k3 + 1)
      (' ' :: (printArr (r.languages.map printStr) ++ ('\x7d' :: rest))) =
      some (.arr (r.languages.map Json.str), '\x7d' :: rest) := by
    rw [parseValue_space]
    exact parseValue_strArr _ _ k3 (by omega)
  rw [parseMembers_cons (k3 + 1) "languages" _ _ _ _ hval3]
  rw [skipWs_cons_of_neg '\x7d' _ (by decide)]
  simp only [ite_char_ne '\x7d' ',' (by decide), ite_char_eq_self, if_true]
  simp [recordJson]

/-- Helper: `joinComma` of nonempty pieces is at least as long as the
number of pieces. -/
theorem joinComma_length (l : List (List Char))
    (h : ∀ x ∈ l, 1 ≤ x.length) : l.length ≤ (joinComma l).length := by
  induction l with
  | nil => simp [joinComma]
  | cons x t ih =>
    cases t with
    | nil =>
      simp only [joinComma, List.length_cons, List.length_nil]
      have := h x (by simp)
      omega
    | cons y rest =>
      have iht := ih (fun z hz => h z (List.mem_cons_of_mem _ hz))
      simp only [joinComma, List.length_append, List.length_cons] at iht ⊢
      have hx := h x (by simp)
      omega

/-- Helper: the printed form of an integer is nonempty. -/
theorem intChars_length_pos (i : Int) : 1 ≤ (intChars i).length := by
  obtain ⟨c, tl, heq, _⟩ := intChars_head i
  simp [heq]

/-- Helper: a printed string literal is nonempty. -/
theorem printStr_length_pos (s : String) : 1 ≤ (printStr s).length := by
  simp [printStr]

/-- Helper: a printed array is at least as long as its element count
plus the two brackets. -/
theorem printArr_length (elems : List (List Char))
    (h : ∀ x ∈ elems, 1 ≤ x.length) :
    elems.length + 2 ≤ (printArr elems).length := by
  have := joinComma_length elems h
  simp only [printArr, List.length_cons, List.length_append,
    List.length_nil]
  omega

/-- Helper: `json.loads` succeeds on the serialized record, producing
exactly its JSON value. -/
theorem jsonLoads_serializeRecord (r : CVExtractedFields) :
    jsonLoads (serializeRecord r) = some (recordJson r) := by
  have hlen : r.years_of_employment.length + r.skills.length +
      r.languages.length + 9 ≤ (serializeRecord r).data.length + 1 := by
    have h1 : r.years_of_employment.length + 2 ≤
        (printArr (r.years_of_employment.map intChars)).length := by
      have := printArr_length (r.years_of_employment.map intChars)
        (by
          intro x hx
          simp only [List.mem_map] at hx
          obtain ⟨i, _, rfl⟩ := hx
          exact intChars_length_pos i)
      simpa using this
    have h2 : r.skills.length + 2 ≤
        (printArr (r.skills.map printStr)).length := by
      have := printArr_length (r.skills.map printStr)
        (by
          intro x hx
          simp only [List.mem_map] at hx
          obtain ⟨s, _, rfl⟩ := hx
          exact printStr_length_pos s)
      simpa using this
    have h3 : r.languages.length + 2 ≤
        (printArr (r.languages.map printStr)).length := by
      have := printArr_length (r.languages.map printStr)
        (by
          intro x hx
          simp only [List.mem_map] at hx
          obtain ⟨s, _, rfl⟩ := hx
          exact printStr_length_pos s)
      simpa using this
    have hd : (serializeRecord r).data.length =
        ('\x7b' :: printStr "years_of_employment" ++ ':' :: ' ' ::
          printArr (r.years_of_employment.map intChars) ++ ',' :: ' ' ::
          printStr "skills" ++ ':' :: ' ' ::
          printArr (r.skills.map printStr) ++ ',' :: ' ' ::
          printStr "languages" ++ ':' :: ' ' ::
          printArr (r.languages.map printStr) ++ ['\x7d']).length := rfl
    rw [hd]
    simp only [List.length_append, List.length_cons, List.length_nil]
    omega
  have hp := parseValue_record r [] ((serializeRecord r).data.length + 1)
    hlen
  rw [List.append_nil] at hp
  unfold jsonLoads
  rw [show (serializeRecord r).data.length + 2 =
    (serializeRecord r).data.length + 1 + 1 from rfl]
  rw [hp]
  rfl

/-- Helper: `pyStripList` is the identity on a list with non-whitespace
first and last characters. -/
theorem pyStripList_id (c : Char) (mid : List Char) (d : Char)
    (hc : isPyWs c = false) (hd : isPyWs d = false) :
    pyStripList (c :: (mid ++ [d])) = c :: (mid ++ [d]) := by
  unfold pyStripList
  rw [List.dropWhile_cons_of_neg (by simp [hc])]
  have hrev : (c :: (mid ++ [d])).reverse = d :: (mid.reverse ++ [c]) := by
    simp
  rw [hrev]
  rw [List.dropWhile_cons_of_neg (by simp [hd])]
  rw [← hrev, List.reverse_reverse]

/-- Helper: Python `strip()` leaves the serialized record unchanged. -/
theorem pyStrip_serializeRecord (r : CVExtractedFields) :
    pyStrip (serializeRecord r) = serializeRecord r := by
  have h1 : (serializeRecord r).data =
      '\x7b' :: ((printStr "years_of_employment" ++ ':' :: ' ' ::
        printArr (r.years_of_employment.map intChars) ++ ',' :: ' ' ::
        printStr "skills" ++ ':' :: ' ' ::
        printArr (r.skills.map printStr) ++ ',' :: ' ' ::
        printStr "languages" ++ ':' :: ' ' ::
        printArr (r.languages.map printStr)) ++ ['\x7d']) := by
    conv_lhs => rw [show (serializeRecord r).data =
      ('\x7b' :: printStr "years_of_employment" ++ ':' :: ' ' ::
        printArr (r.years_of_employment.map intChars) ++ ',' :: ' ' ::
        printStr "skills" ++ ':' :: ' ' ::
        printArr (r.skills.map printStr) ++ ',' :: ' ' ::
        printStr "languages" ++ ':' :: ' ' ::
        printArr (r.languages.map printStr) ++ ['\x7d']) from rfl]
    simp [List.append_assoc]
  unfold pyStrip
  rw [h1, pyStripList_id '\x7b' _ '\x7d' (by decide) (by decide), ← h1]

/-- Helper: element-wise integer coercion inverts `Json.num`. -/
theorem coerceInts_map_num (ys : List Int) :
    coerceInts (ys.map Json.num) = some ys := by
  induction ys with
  | nil => rfl
  | cons y t ih => simp [coerceInts, coerceInt, ih]

/-- Helper: element-wise string coercion inverts `Json.str`. -/
theorem coerceStrs_map_str (ss : List String) :
    coerceStrs (ss.map Json.str) = some ss := by
  induction ss with
  | nil => rfl
  | cons s t ih => simp [coerceStrs, coerceStr, ih]

/-- Helper: pydantic validation accepts the record's own JSON value and
returns the record. -/
theorem validate_recordJson (r : CVExtractedFields) :
    validateCV (recordJson r) = .ok r := by
  simp [validateCV, recordJson, pyDictGet, asIntList, asStrList,
    coerceInts_map_num, coerceStrs_map_str]

/-- Claim C9: parsing the JSON serialization of any schema-conforming
record through the Normalizer succeeds at tier 1 — `json.loads` on the
stripped text returns exactly the record's JSON object — and the full
normalization returns the record unchanged. -/
theorem C9_roundtrip (r : CVExtractedFields) :
    jsonLoads (pyStrip (serializeRecord r)) = some (recordJson r) ∧
    normalize (serializeRecord r) = .ok r := by
  have hload : jsonLoads (pyStrip (serializeRecord r)) =
      some (recordJson r) := by
    rw [pyStrip_serializeRecord]
    exact jsonLoads_serializeRecord r
  refine ⟨hload, ?_⟩
  unfold normalize parse_json_response
  rw [hload]
  simp [validate_recordJson r]

/-- Claim C9, witness: the round trip at a concrete record. -/
theorem C9_witness :
    normalize (serializeRecord ⟨[2020], ["Go"], ["English"]⟩) =
      .ok ⟨[2020], ["Go"], ["English"]⟩ :=
  (C9_roundtrip ⟨[2020], ["Go"], ["English"]⟩).2

end CVParse
